import Mathlib

/-!
Verification of the permission resolver (src/auth/permissions.py) and of the
attachment / MIME message assembly pipeline of the google_workspace_mcp
repository, against its natural-language specification.

Conventions of the embedding:
* Python lists become Lean `List`s, dicts become association lists
  (`List (key × value)`) looked up by first match; the repository's dict
  literals have unique keys, so first-match lookup agrees with Python.
* Python `raise ValueError(msg)` becomes `Except.error msg` with `msg` the
  exact formatted message string.
* Python's `set` has an unspecified iteration order, so `list(set(xs))` is
  embedded as `xs.dedup` (first-occurrence order).  Theorems rely only on
  properties that are independent of the order chosen by `set` — membership
  and duplicate-freeness — never on the particular order of `dedup`.
* Bytes are `Nat`s below 256.
-/

/-- Modelled from the spec: the OAuth scope constants imported from
`auth/scopes.py`, a file that is not part of the sources under study (only
its import list is visible in `auth/permissions.py`).  The spec treats
scopes as opaque authorization grant strings ("a named authorization grant
string understood by the remote service"), so each constant is embedded as
a distinct opaque string; no theorem below depends on the concrete values. -/
def GMAIL_READONLY_SCOPE : String := "scope:gmail.readonly"

def GMAIL_LABELS_SCOPE : String := "scope:gmail.labels"

def GMAIL_MODIFY_SCOPE : String := "scope:gmail.modify"

def GMAIL_COMPOSE_SCOPE : String := "scope:gmail.compose"

def GMAIL_SEND_SCOPE : String := "scope:gmail.send"

def GMAIL_SETTINGS_BASIC_SCOPE : String := "scope:gmail.settings.basic"

def DRIVE_READONLY_SCOPE : String := "scope:drive.readonly"

def DRIVE_FILE_SCOPE : String := "scope:drive.file"

def DRIVE_SCOPE : String := "scope:drive"

def CALENDAR_READONLY_SCOPE : String := "scope:calendar.readonly"

def CALENDAR_EVENTS_SCOPE : String := "scope:calendar.events"

def CALENDAR_SCOPE : String := "scope:calendar"

def DOCS_READONLY_SCOPE : String := "scope:documents.readonly"

def DOCS_WRITE_SCOPE : String := "scope:documents"

def SHEETS_READONLY_SCOPE : String := "scope:spreadsheets.readonly"

def SHEETS_WRITE_SCOPE : String := "scope:spreadsheets"

def CHAT_READONLY_SCOPE : String := "scope:chat.messages.readonly"

def CHAT_WRITE_SCOPE : String := "scope:chat.messages"

def CHAT_SPACES_SCOPE : String := "scope:chat.spaces"

def CHAT_SPACES_READONLY_SCOPE : String := "scope:chat.spaces.readonly"

def FORMS_BODY_SCOPE : String := "scope:forms.body"

def FORMS_BODY_READONLY_SCOPE : String := "scope:forms.body.readonly"

def FORMS_RESPONSES_READONLY_SCOPE : String := "scope:forms.responses.readonly"

def SLIDES_SCOPE : String := "scope:presentations"

def SLIDES_READONLY_SCOPE : String := "scope:presentations.readonly"

def TASKS_SCOPE : String := "scope:tasks"

def TASKS_READONLY_SCOPE : String := "scope:tasks.readonly"

def CONTACTS_SCOPE : String := "scope:contacts"

def CONTACTS_READONLY_SCOPE : String := "scope:contacts.readonly"

def CUSTOM_SEARCH_SCOPE : String := "scope:cse"

def SCRIPT_PROJECTS_SCOPE : String := "scope:script.projects"

def SCRIPT_PROJECTS_READONLY_SCOPE : String := "scope:script.projects.readonly"

def SCRIPT_DEPLOYMENTS_SCOPE : String := "scope:script.deployments"

def SCRIPT_DEPLOYMENTS_READONLY_SCOPE : String := "scope:script.deployments.readonly"

def SCRIPT_PROCESSES_READONLY_SCOPE : String := "scope:script.processes.readonly"

def SCRIPT_METRICS_SCOPE : String := "scope:script.metrics"

/-- An ordered per-service level table: `(level name, additional scopes)`. -/
abbrev LevelTable := List (String × List String)

/-- `SERVICE_PERMISSION_LEVELS` from `auth/permissions.py` (lines 62-132):
ordered permission levels per service, scopes cumulative. -/
def SERVICE_PERMISSION_LEVELS : List (String × LevelTable) :=
  [ ("gmail",
      [ ("readonly", [GMAIL_READONLY_SCOPE]),
        ("organize", [GMAIL_LABELS_SCOPE, GMAIL_MODIFY_SCOPE]),
        ("drafts", [GMAIL_COMPOSE_SCOPE]),
        ("send", [GMAIL_SEND_SCOPE]),
        ("full", [GMAIL_SETTINGS_BASIC_SCOPE]) ]),
    ("drive",
      [ ("readonly", [DRIVE_READONLY_SCOPE]),
        ("full", [DRIVE_SCOPE, DRIVE_FILE_SCOPE]) ]),
    ("calendar",
      [ ("readonly", [CALENDAR_READONLY_SCOPE]),
        ("full", [CALENDAR_SCOPE, CALENDAR_EVENTS_SCOPE]) ]),
    ("docs",
      [ ("readonly", [DOCS_READONLY_SCOPE, DRIVE_READONLY_SCOPE]),
        ("full", [DOCS_WRITE_SCOPE, DRIVE_READONLY_SCOPE, DRIVE_FILE_SCOPE]) ]),
    ("sheets",
      [ ("readonly", [SHEETS_READONLY_SCOPE, DRIVE_READONLY_SCOPE]),
        ("full", [SHEETS_WRITE_SCOPE, DRIVE_READONLY_SCOPE]) ]),
    ("chat",
      [ ("readonly", [CHAT_READONLY_SCOPE, CHAT_SPACES_READONLY_SCOPE]),
        ("full", [CHAT_WRITE_SCOPE, CHAT_SPACES_SCOPE]) ]),
    ("forms",
      [ ("readonly", [FORMS_BODY_READONLY_SCOPE, FORMS_RESPONSES_READONLY_SCOPE]),
        ("full", [FORMS_BODY_SCOPE, FORMS_RESPONSES_READONLY_SCOPE]) ]),
    ("slides",
      [ ("readonly", [SLIDES_READONLY_SCOPE]),
        ("full", [SLIDES_SCOPE]) ]),
    ("tasks",
      [ ("readonly", [TASKS_READONLY_SCOPE]),
        ("full", [TASKS_SCOPE]) ]),
    ("contacts",
      [ ("readonly", [CONTACTS_READONLY_SCOPE]),
        ("full", [CONTACTS_SCOPE]) ]),
    ("search",
      [ ("readonly", [CUSTOM_SEARCH_SCOPE]),
        ("full", [CUSTOM_SEARCH_SCOPE]) ]),
    ("appscript",
      [ ("readonly",
          [ SCRIPT_PROJECTS_READONLY_SCOPE,
            SCRIPT_DEPLOYMENTS_READONLY_SCOPE,
            SCRIPT_PROCESSES_READONLY_SCOPE,
            SCRIPT_METRICS_SCOPE,
            DRIVE_READONLY_SCOPE ]),
        ("full",
          [ SCRIPT_PROJECTS_SCOPE,
            SCRIPT_DEPLOYMENTS_SCOPE,
            SCRIPT_PROCESSES_READONLY_SCOPE,
            SCRIPT_METRICS_SCOPE,
            DRIVE_FILE_SCOPE ]) ]) ]

/-- First-match association-list lookup; embeds Python `dict.get` (the
repository's dict literals have unique keys). -/
def alistLookup {α : Type} (k : String) : List (String × α) → Option α
  | [] => none
  | (k2, v) :: rest => if k2 = k then some v else alistLookup k rest

/-- `SERVICE_PERMISSION_LEVELS.get(service)` (line 163). -/
def lookupService (service : String) : Option LevelTable :=
  alistLookup service SERVICE_PERMISSION_LEVELS

/-- Python `repr`-style single quoting used in the f-string error messages
(`'{value}'`). -/
def pyQuote (s : String) : String := "\x27" ++ s ++ "\x27"

/-- Python `repr` of a list of strings, as interpolated by `f"... {valid}"`. -/
def pyListReprAux : List String → String
  | [] => ""
  | [x] => pyQuote x
  | x :: rest => pyQuote x ++ ", " ++ pyListReprAux rest

def pyListRepr (xs : List String) : String := "[" ++ pyListReprAux xs ++ "]"

/-- Message of the `ValueError` raised at line 165 of `auth/permissions.py`. -/
def unknownServiceMsg (service : String) : String :=
  "Unknown service: " ++ pyQuote service

/-- Message of the `ValueError` raised at lines 177-180 of `auth/permissions.py`. -/
def unknownLevelMsg (level service : String) (valid : List String) : String :=
  "Unknown permission level " ++ pyQuote level ++ " for service " ++ pyQuote service ++
    ". Valid levels: " ++ pyListRepr valid

/-- The accumulation loop of `get_scopes_for_permission` (lines 167-173):
walk the level table extending `acc` with each level's scopes, stopping
(inclusively) at the first entry whose name is `level`; `none` when the
level name never occurs. -/
def cumulativeScopes : LevelTable → String → List String → Option (List String)
  | [], _, _ => none
  | (name, scopes) :: rest, level, acc =>
    if name = level then some (acc ++ scopes)
    else cumulativeScopes rest level (acc ++ scopes)

/-- `get_scopes_for_permission` (lines 156-182 of `auth/permissions.py`).
The source returns `list(set(cumulative))`; `set` deduplicates and forgets
the accumulation order, so the embedding uses `dedup` and theorems use only
order-independent consequences (membership, duplicate-freeness). -/
def get_scopes_for_permission (service level : String) : Except String (List String) :=
  match lookupService service with
  | none => .error (unknownServiceMsg service)
  | some levels =>
    match cumulativeScopes levels level [] with
    | some cumulative => .ok cumulative.dedup
    | none => .error (unknownLevelMsg level service (levels.map Prod.fst))

/-- `get_valid_levels` (lines 211-216 of `auth/permissions.py`). -/
def get_valid_levels (service : String) : List String :=
  match lookupService service with
  | none => []
  | some levels => levels.map Prod.fst

/-- Convenience: the gmail entry of the table (used to instantiate theorems). -/
def gmailLevels : LevelTable := (lookupService "gmail").getD []

example : lookupService "gmail" = some gmailLevels := rfl

/-- The module-level `_PERMISSIONS` global (line 136): `None` until
configured, else a dict mapping service name to level name (embedded as an
insertion-ordered association list, matching Python dict semantics). -/
abbrev PermState := Option (List (String × String))

/-- `set_permissions` (lines 139-143): overwrite the module-level state. -/
def set_permissions (_st : PermState) (permissions : List (String × String)) : PermState :=
  some permissions

/-- `get_permissions` (lines 146-148). -/
def get_permissions (st : PermState) : Option (List (String × String)) := st

/-- `is_permissions_mode` (lines 151-153). -/
def is_permissions_mode (st : PermState) : Bool := st.isSome

/-- The `set.update` loop of `get_all_permission_scopes` (lines 194-196):
a running union, keeping the first occurrence of each element.  (Python's
`set` forgets order; only membership facts are used in theorems.) -/
def unionScopes (acc extra : List String) : List String :=
  acc ++ extra.filter (fun x => decide (x ∉ acc))

/-- `get_all_permission_scopes` (lines 185-197).  The loop calls
`get_scopes_for_permission`, whose `ValueError` propagates; hence `Except`. -/
def get_all_permission_scopes (st : PermState) : Except String (List String) :=
  match st with
  | none => .ok []
  | some perms =>
    perms.foldlM
      (fun acc p => do
        let scopes ← get_scopes_for_permission p.1 p.2
        pure (unionScopes acc scopes))
      []

/-- `get_allowed_scopes_set` (lines 200-208): `none` (the unrestricted
sentinel) when permissions mode is inactive, otherwise the de-duplicated
union of the configured services' cumulative scopes. -/
def get_allowed_scopes_set (st : PermState) : Except String (Option (List String)) :=
  match st with
  | none => .ok none
  | some _ => do
    let scopes ← get_all_permission_scopes st
    pure (some scopes)

/-- Python `entry.split(":", 1)` on character lists: `none` when no colon
occurs (the `":" not in entry` test of line 228), otherwise the parts
before and after the first colon. -/
def splitOnColon : List Char → Option (List Char × List Char)
  | [] => none
  | c :: cs =>
    if c = ':' then some ([], cs)
    else
      match splitOnColon cs with
      | some (a, b) => some (c :: a, b)
      | none => none

/-- `entry.split(":", 1)` (line 233), fused with the colon-presence test. -/
def splitFirstColon (entry : String) : Option (String × String) :=
  (splitOnColon entry.toList).map (fun p => (⟨p.1⟩, ⟨p.2⟩))

/-- Message of the `ValueError` raised at lines 229-232 of `auth/permissions.py`. -/
def invalidFormatMsg (entry : String) : String :=
  "Invalid permission format: " ++ pyQuote entry ++ ". Expected " ++
    pyQuote "service:level" ++ " (e.g., " ++ pyQuote "gmail:organize" ++ ", " ++
    pyQuote "drive:readonly" ++ ")"

/-- Message of the `ValueError` raised at line 235 of `auth/permissions.py`. -/
def duplicateServiceMsg (service : String) : String :=
  "Duplicate service in permissions: " ++ pyQuote service

/-- Message of the `ValueError` raised at lines 237-240 of `auth/permissions.py`
(`sorted(SERVICE_PERMISSION_LEVELS.keys())`). -/
def unknownServiceParseMsg (service : String) : String :=
  "Unknown service: " ++ pyQuote service ++ ". Valid services: " ++
    pyListRepr ((SERVICE_PERMISSION_LEVELS.map Prod.fst).mergeSort (fun a b => a ≤ b))

/-- Message of the `ValueError` raised at lines 243-246 of `auth/permissions.py`. -/
def unknownLevelParseMsg (level service : String) (valid : List String) : String :=
  "Unknown level " ++ pyQuote level ++ " for service " ++ pyQuote service ++
    ". Valid levels: " ++ pyListRepr valid

/-- One iteration of the `for entry in permissions_list` loop of
`parse_permissions_arg` (lines 227-247): format check, split on the first
colon, duplicate check, service lookup, level check, then commit
`result[service] = level`. -/
def parseStep (result : List (String × String)) (entry : String) :
    Except String (List (String × String)) :=
  match splitFirstColon entry with
  | none => .error (invalidFormatMsg entry)
  | some (service, level) =>
    if (alistLookup service result).isSome then .error (duplicateServiceMsg service)
    else if (lookupService service).isNone then .error (unknownServiceParseMsg service)
    else if level ∈ get_valid_levels service then .ok (result ++ [(service, level)])
    else .error (unknownLevelParseMsg level service (get_valid_levels service))

/-- The loop of `parse_permissions_arg`: the first failing entry aborts. -/
def parseLoop (result : List (String × String)) :
    List String → Except String (List (String × String))
  | [] => .ok result
  | entry :: rest =>
    match parseStep result entry with
    | .ok result2 => parseLoop result2 rest
    | .error e => .error e

/-- `parse_permissions_arg` (lines 219-248 of `auth/permissions.py`). -/
def parse_permissions_arg (permissions_list : List String) :
    Except String (List (String × String)) :=
  parseLoop [] permissions_list

/-- `parse_permissions_arg` is pure: the function body never reads or
writes the module-level `_PERMISSIONS` global, so threading the module
state through it returns that state unchanged alongside the result. -/
def parse_permissions_arg_run (st : PermState) (permissions_list : List String) :
    PermState × Except String (List (String × String)) :=
  (st, parse_permissions_arg permissions_list)

/-! ### Helper lemmas about the cumulative-scope walk -/

theorem cumulativeScopes_isPrefix :
    ∀ (levels : LevelTable) (level : String) (acc r : List String),
      cumulativeScopes levels level acc = some r → acc <+: r := by
  intro levels
  induction levels with
  | nil => intro level acc r h; simp [cumulativeScopes] at h
  | cons hd tl ih =>
    intro level acc r h
    rw [cumulativeScopes] at h
    by_cases hn : hd.1 = level
    · rw [if_pos hn] at h
      cases h
      exact List.prefix_append acc hd.2
    · rw [if_neg hn] at h
      exact (List.prefix_append acc hd.2).trans (ih level (acc ++ hd.2) r h)

theorem cumulativeScopes_found :
    ∀ (levels : LevelTable) (level : String) (acc : List String),
      level ∈ levels.map Prod.fst →
      ∃ r, cumulativeScopes levels level acc = some r := by
  intro levels
  induction levels with
  | nil => intro level acc h; simp at h
  | cons hd tl ih =>
    intro level acc h
    rw [cumulativeScopes]
    by_cases hn : hd.1 = level
    · exact ⟨acc ++ hd.2, by rw [if_pos hn]⟩
    · rw [if_neg hn]
      apply ih
      simp only [List.map_cons, List.mem_cons] at h
      rcases h with h | h
      · exact absurd h.symm hn
      · exact h

theorem cumulativeScopes_not_found :
    ∀ (levels : LevelTable) (level : String) (acc : List String),
      level ∉ levels.map Prod.fst →
      cumulativeScopes levels level acc = none := by
  intro levels
  induction levels with
  | nil => intro level acc _; rfl
  | cons hd tl ih =>
    intro level acc h
    simp only [List.map_cons, List.mem_cons, not_or] at h
    rw [cumulativeScopes, if_neg (fun hn => h.1 hn.symm)]
    exact ih level (acc ++ hd.2) h.2

/-- Walking the same table to a later level extends the walk to an earlier
level: the earlier cumulative list is a prefix of the later one. -/
theorem cumulativeScopes_mono :
    ∀ (levels : LevelTable) (i j : Nat) (hij : i < j) (hj : j < levels.length)
      (_hnd : (levels.map Prod.fst).Nodup) (acc : List String),
      ∃ r1 r2,
        cumulativeScopes levels (levels.get ⟨i, Nat.lt_trans hij hj⟩).1 acc = some r1 ∧
        cumulativeScopes levels (levels.get ⟨j, hj⟩).1 acc = some r2 ∧
        r1 <+: r2 := by
  intro levels
  induction levels with
  | nil => intro i j hij hj _ acc; simp at hj
  | cons hd tl ih =>
    intro i j hij hj hnd acc
    simp only [List.map_cons, List.nodup_cons] at hnd
    match j, hj with
    | j + 1, hj =>
      have hjtl : j < tl.length := by simpa using hj
      have hgetj : ((hd :: tl).get ⟨j + 1, by simpa using hj⟩) = tl.get ⟨j, hjtl⟩ := rfl
      have hjmem : (tl.get ⟨j, hjtl⟩).1 ∈ tl.map Prod.fst :=
        List.mem_map_of_mem Prod.fst (List.get_mem tl j hjtl)
      have hdne_j : hd.1 ≠ (tl.get ⟨j, hjtl⟩).1 := by
        intro hcontra
        exact hnd.1 (hcontra ▸ hjmem)
      match i with
      | 0 =>
        refine ⟨acc ++ hd.2, ?_⟩
        obtain ⟨r2, hr2⟩ := cumulativeScopes_found tl (tl.get ⟨j, hjtl⟩).1 (acc ++ hd.2) hjmem
        refine ⟨r2, ?_, ?_, ?_⟩
        · show cumulativeScopes (hd :: tl) hd.1 acc = some (acc ++ hd.2)
          rw [cumulativeScopes, if_pos rfl]
        · show cumulativeScopes (hd :: tl) (tl.get ⟨j, hjtl⟩).1 acc = some r2
          rw [cumulativeScopes, if_neg hdne_j]
          exact hr2
        · exact cumulativeScopes_isPrefix tl _ _ _ hr2
      | i + 1 =>
        have hitl : i < tl.length := by omega
        have hiij : i < j := by omega
        obtain ⟨r1, r2, h1, h2, h12⟩ := ih i j hiij hjtl hnd.2 (acc ++ hd.2)
        have himem : (tl.get ⟨i, hitl⟩).1 ∈ tl.map Prod.fst :=
          List.mem_map_of_mem Prod.fst (List.get_mem tl i hitl)
        have hdne_i : hd.1 ≠ (tl.get ⟨i, hitl⟩).1 := by
          intro hcontra
          exact hnd.1 (hcontra ▸ himem)
        refine ⟨r1, r2, ?_, ?_, h12⟩
        · show cumulativeScopes (hd :: tl) (tl.get ⟨i, hitl⟩).1 acc = some r1
          rw [cumulativeScopes, if_neg hdne_i]
          convert h1 using 3
        · show cumulativeScopes (hd :: tl) (tl.get ⟨j, hjtl⟩).1 acc = some r2
          rw [cumulativeScopes, if_neg hdne_j]
          exact h2

/-! ### String-containment helpers for error-message theorems -/

instance {α β : Type} [DecidableEq α] [DecidableEq β] : DecidableEq (Except α β) :=
  fun a b =>
    match a, b with
    | .ok x, .ok y => decidable_of_iff (x = y) (by simp)
    | .error x, .error y => decidable_of_iff (x = y) (by simp)
    | .ok _, .error _ => isFalse (by simp)
    | .error _, .ok _ => isFalse (by simp)

theorem toList_append (a b : String) : (a ++ b).toList = a.toList ++ b.toList := rfl

theorem infix_pyQuote (s : String) : s.toList <:+: (pyQuote s).toList :=
  ⟨"\x27".toList, "\x27".toList, by simp [pyQuote, toList_append]⟩

theorem infix_append_left_ext {u v : List Char} (w : List Char) (h : u <:+: v) :
    u <:+: v ++ w :=
  h.trans (List.prefix_append v w).isInfix

theorem infix_append_right_ext {u w : List Char} (v : List Char) (h : u <:+: w) :
    u <:+: v ++ w :=
  h.trans (List.suffix_append v w).isInfix

theorem infix_mid {u b : List Char} (a c : List Char) (h : u <:+: b) :
    u <:+: a ++ (b ++ c) :=
  infix_append_right_ext a (infix_append_left_ext c h)

theorem mem_infix_pyListReprAux {v : String} :
    ∀ xs : List String, v ∈ xs → v.toList <:+: (pyListReprAux xs).toList := by
  intro xs
  induction xs with
  | nil => intro h; simp at h
  | cons x rest ih =>
    intro h
    cases rest with
    | nil =>
      have hv : v = x := by simpa using h
      subst hv
      show v.toList <:+: (pyQuote v).toList
      exact infix_pyQuote v
    | cons y rest2 =>
      show v.toList <:+: (pyQuote x ++ ", " ++ pyListReprAux (y :: rest2)).toList
      rw [toList_append, toList_append]
      rcases List.mem_cons.mp h with hv | h2
      · subst hv
        exact infix_append_left_ext _ (infix_append_left_ext _ (infix_pyQuote v))
      · exact infix_append_right_ext _ (ih h2)

theorem mem_infix_pyListRepr {v : String} {xs : List String} (h : v ∈ xs) :
    v.toList <:+: (pyListRepr xs).toList := by
  show v.toList <:+: ("[" ++ pyListReprAux xs ++ "]").toList
  rw [toList_append, toList_append]
  exact infix_append_left_ext _ (infix_append_right_ext _ (mem_infix_pyListReprAux xs h))

/-- C1: for every service S of the permission-level table and every pair
of valid levels of S, the scope set returned by
`get_scopes_for_permission` at the later level is a superset of the one
returned at any level appearing earlier in S's ordered level table
(cumulative monotonicity of levels). -/
theorem c1_scopes_cumulative_superset
    (service : String) (levels : LevelTable)
    (hs : lookupService service = some levels)
    (hnd : (levels.map Prod.fst).Nodup)
    (i j : Nat) (hij : i < j) (hj : j < levels.length) :
    ∃ rEarlier rLater,
      get_scopes_for_permission service (levels.get ⟨i, Nat.lt_trans hij hj⟩).1 = .ok rEarlier ∧
      get_scopes_for_permission service (levels.get ⟨j, hj⟩).1 = .ok rLater ∧
      ∀ x ∈ rEarlier, x ∈ rLater := by
  obtain ⟨cum1, cum2, h1, h2, hpre⟩ := cumulativeScopes_mono levels i j hij hj hnd []
  refine ⟨cum1.dedup, cum2.dedup, ?_, ?_, ?_⟩
  · simp only [get_scopes_for_permission, hs, h1]
  · simp only [get_scopes_for_permission, hs, h2]
  · intro x hx
    rw [List.mem_dedup] at hx ⊢
    exact hpre.subset hx

/-- Witness for C1 at service `gmail`, levels `readonly` (index 0) and
`send` (index 3). -/
theorem c1_scopes_cumulative_superset_witness :
    ∃ rEarlier rLater,
      get_scopes_for_permission "gmail" "readonly" = .ok rEarlier ∧
      get_scopes_for_permission "gmail" "send" = .ok rLater ∧
      ∀ x ∈ rEarlier, x ∈ rLater := by
  have h := c1_scopes_cumulative_superset "gmail" gmailLevels rfl (by decide)
    0 3 (by decide) (by decide)
  exact h

/-- The output order the specification claims for `scopesForLevel`: each
level's scopes appended in table order while walking from the lowest level
up to and including the named one.  Stated from the spec's words, to be
compared with `get_scopes_for_permission` (which is the source's
behaviour). -/
def scopesAccumOrder (service level : String) : Option (List String) :=
  (lookupService service).bind (fun levels => cumulativeScopes levels level [])

/-- C5 counterexample: for service `docs` at level `full`, the walk-order
accumulation (`[DOCS_READONLY, DRIVE_READONLY, DOCS_WRITE, DRIVE_READONLY,
DRIVE_FILE]`) contains `DRIVE_READONLY_SCOPE` twice, while the code passes
the accumulated list through `set` (duplicate-free); hence the returned
collection is not the accumulation-ordered list the claim describes. -/
theorem c5_counterexample :
    get_scopes_for_permission "docs" "full" ≠
      Except.ok ((scopesAccumOrder "docs" "full").getD []) ∧
    ¬ ((scopesAccumOrder "docs" "full").getD []).Nodup := by
  decide

/-- C5 amended: `get_scopes_for_permission(S, L)` returns a duplicate-free
collection containing exactly the scopes accumulated by walking S's level
table from the lowest level up to and including L; the element order is
not the accumulation order (the code converts the accumulated list through
a `set`, which deduplicates and forgets order). -/
theorem c5_scopes_are_walk_accumulation_as_set
    (service level : String) (cum : List String)
    (h : scopesAccumOrder service level = some cum) :
    ∃ r, get_scopes_for_permission service level = .ok r ∧ r.Nodup ∧
      ∀ x, x ∈ r ↔ x ∈ cum := by
  unfold scopesAccumOrder at h
  cases hs : lookupService service with
  | none => rw [hs] at h; simp at h
  | some levels =>
    rw [hs] at h
    simp only [Option.some_bind] at h
    refine ⟨cum.dedup, ?_, List.nodup_dedup cum, fun x => List.mem_dedup⟩
    simp only [get_scopes_for_permission, hs, h]

/-- Witness for C5's amended theorem at `docs`/`full`. -/
theorem c5_scopes_are_walk_accumulation_as_set_witness :
    ∃ r, get_scopes_for_permission "docs" "full" = .ok r ∧ r.Nodup ∧
      ∀ x, x ∈ r ↔
        x ∈ [DOCS_READONLY_SCOPE, DRIVE_READONLY_SCOPE, DOCS_WRITE_SCOPE,
             DRIVE_READONLY_SCOPE, DRIVE_FILE_SCOPE] := by
  exact c5_scopes_are_walk_accumulation_as_set "docs" "full" _ rfl

/-- C6 counterexample: the unknown-service failure of
`get_scopes_for_permission` carries only the invalid service name; its
message lists no valid alternatives (it contains neither the word `Valid`
nor any valid service name such as `gmail`). -/
theorem c6_counterexample :
    get_scopes_for_permission "bogus" "readonly" = .error (unknownServiceMsg "bogus") ∧
    ¬ ("gmail".toList <:+: (unknownServiceMsg "bogus").toList) ∧
    ¬ ("Valid".toList <:+: (unknownServiceMsg "bogus").toList) := by
  decide

/-- C6 amended: whenever `get_scopes_for_permission` fails, the error
identifies the invalid value; the unknown-level failure additionally
carries the list of valid level names for the service, while the
unknown-service failure carries the invalid service name only (no list of
valid service names). -/
theorem c6_error_context (service level : String) :
    (lookupService service = none →
      get_scopes_for_permission service level = .error (unknownServiceMsg service) ∧
      service.toList <:+: (unknownServiceMsg service).toList) ∧
    (∀ levels, lookupService service = some levels →
      level ∉ levels.map Prod.fst →
      get_scopes_for_permission service level =
        .error (unknownLevelMsg level service (levels.map Prod.fst)) ∧
      level.toList <:+: (unknownLevelMsg level service (levels.map Prod.fst)).toList ∧
      ∀ v ∈ levels.map Prod.fst,
        v.toList <:+: (unknownLevelMsg level service (levels.map Prod.fst)).toList) := by
  constructor
  · intro hs
    constructor
    · unfold get_scopes_for_permission
      rw [hs]
    · show service.toList <:+: ("Unknown service: " ++ pyQuote service).toList
      rw [toList_append]
      exact infix_append_right_ext _ (infix_pyQuote service)
  · intro levels hs hlvl
    have hnone := cumulativeScopes_not_found levels level [] hlvl
    refine ⟨?_, ?_, ?_⟩
    · simp only [get_scopes_for_permission, hs, hnone]
    · show level.toList <:+:
        ("Unknown permission level " ++ pyQuote level ++ " for service " ++
          pyQuote service ++ ". Valid levels: " ++
          pyListRepr (levels.map Prod.fst)).toList
      simp only [toList_append, List.append_assoc]
      exact infix_mid _ _ (infix_pyQuote level)
    · intro v hv
      show v.toList <:+:
        ("Unknown permission level " ++ pyQuote level ++ " for service " ++
          pyQuote service ++ ". Valid levels: " ++
          pyListRepr (levels.map Prod.fst)).toList
      simp only [toList_append, List.append_assoc]
      exact infix_append_right_ext _ (infix_append_right_ext _ (infix_append_right_ext _
        (infix_append_right_ext _ (infix_append_right_ext _ (mem_infix_pyListRepr hv)))))

/-- Witness for C6's amended theorem: the unknown-service case at `bogus`
and the unknown-level case at `gmail`/`bogus` (checking that the valid
level `readonly` is reported in the message). -/
theorem c6_error_context_witness :
    (get_scopes_for_permission "bogus" "readonly" = .error (unknownServiceMsg "bogus") ∧
      "bogus".toList <:+: (unknownServiceMsg "bogus").toList) ∧
    (get_scopes_for_permission "gmail" "bogus" =
        .error (unknownLevelMsg "bogus" "gmail" (gmailLevels.map Prod.fst)) ∧
      "bogus".toList <:+: (unknownLevelMsg "bogus" "gmail" (gmailLevels.map Prod.fst)).toList ∧
      "readonly".toList <:+:
        (unknownLevelMsg "bogus" "gmail" (gmailLevels.map Prod.fst)).toList) := by
  constructor
  · exact (c6_error_context "bogus" "readonly").1 rfl
  · have h := (c6_error_context "gmail" "bogus").2 gmailLevels rfl (by decide)
    exact ⟨h.1, h.2.1, h.2.2 "readonly" (by decide)⟩

/-! ### Lemmas about entry splitting and the parse loop -/

theorem splitOnColon_of_not_mem :
    ∀ l : List Char, ':' ∉ l → splitOnColon l = none := by
  intro l
  induction l with
  | nil => intro _; rfl
  | cons c cs ih =>
    intro h
    simp only [List.mem_cons, not_or] at h
    rw [splitOnColon, if_neg (fun hc => h.1 hc.symm), ih h.2]

theorem splitOnColon_append :
    ∀ (l1 l2 : List Char), ':' ∉ l1 →
      splitOnColon (l1 ++ ':' :: l2) = some (l1, l2) := by
  intro l1
  induction l1 with
  | nil => intro l2 _; simp [splitOnColon]
  | cons c cs ih =>
    intro l2 h
    simp only [List.mem_cons, not_or] at h
    rw [List.cons_append, splitOnColon, if_neg (fun hc => h.1 hc.symm), ih l2 h.2]

theorem splitFirstColon_of_not_mem (entry : String) (h : ':' ∉ entry.toList) :
    splitFirstColon entry = none := by
  rw [splitFirstColon, splitOnColon_of_not_mem entry.toList h]
  rfl

theorem splitFirstColon_append (a b : String) (h : ':' ∉ a.toList) :
    splitFirstColon (a ++ ":" ++ b) = some (a, b) := by
  have hl : (a ++ ":" ++ b).toList = a.toList ++ ':' :: b.toList := by
    simp [toList_append]
  rw [splitFirstColon, hl, splitOnColon_append a.toList b.toList h]
  rfl

theorem parseLoop_append_of_error :
    ∀ (res : List (String × String)) (es1 es2 : List String) (e : String),
      parseLoop res es1 = .error e → parseLoop res (es1 ++ es2) = .error e := by
  intro res es1
  induction es1 generalizing res with
  | nil => intro es2 e h; simp [parseLoop] at h
  | cons entry rest ih =>
    intro es2 e h
    rw [parseLoop] at h
    rw [List.cons_append, parseLoop]
    cases hstep : parseStep res entry with
    | ok res2 =>
      rw [hstep] at h
      exact ih res2 es2 e h
    | error e2 =>
      rw [hstep] at h
      exact h

/-- C4: `parse_permissions_arg` splits each entry on the first colon only;
an entry without a colon fails with the malformed-format error, a service
occurring in a second entry fails with the duplicate-service error, and
unknown services/levels fail with their respective errors; processing is
all-or-nothing (the first invalid entry aborts the whole batch) and the
module-level configuration is untouched by parsing.  The conjunction also
checks the spec's three concrete examples. -/
theorem c4_parse_permissions_arg_spec :
    -- (1) each entry is split on the first colon only
    (∀ a b : String, ':' ∉ a.toList → splitFirstColon (a ++ ":" ++ b) = some (a, b)) ∧
    -- (2) an entry without a colon fails with the malformed-format error
    (∀ (res : List (String × String)) (entry : String), ':' ∉ entry.toList →
      parseStep res entry = .error (invalidFormatMsg entry)) ∧
    -- (3) a service already committed fails with the duplicate-service error
    (∀ (res : List (String × String)) (a b : String), ':' ∉ a.toList →
      (alistLookup a res).isSome →
      parseStep res (a ++ ":" ++ b) = .error (duplicateServiceMsg a)) ∧
    -- (4) an unknown service fails with the unknown-service error
    (∀ (res : List (String × String)) (a b : String), ':' ∉ a.toList →
      alistLookup a res = none → lookupService a = none →
      parseStep res (a ++ ":" ++ b) = .error (unknownServiceParseMsg a)) ∧
    -- (5) a known service with an invalid level fails with the unknown-level error
    (∀ (res : List (String × String)) (a b : String) (levels : LevelTable),
      ':' ∉ a.toList → alistLookup a res = none →
      lookupService a = some levels → b ∉ levels.map Prod.fst →
      parseStep res (a ++ ":" ++ b) =
        .error (unknownLevelParseMsg b a (levels.map Prod.fst))) ∧
    -- (6) a valid entry commits service -> level at the end of the mapping
    (∀ (res : List (String × String)) (a b : String) (levels : LevelTable),
      ':' ∉ a.toList → alistLookup a res = none →
      lookupService a = some levels → b ∈ levels.map Prod.fst →
      parseStep res (a ++ ":" ++ b) = .ok (res ++ [(a, b)])) ∧
    -- (7) fail-fast: the first failing entry aborts the whole batch
    (∀ (es1 es2 : List String) (e : String),
      parse_permissions_arg es1 = .error e →
      parse_permissions_arg (es1 ++ es2) = .error e) ∧
    -- (8) parsing never touches the module-level permission state
    (∀ (st : PermState) (es : List String), (parse_permissions_arg_run st es).1 = st) ∧
    -- (9) the spec's concrete examples
    parse_permissions_arg ["gmail:organize", "drive:full"] =
      .ok [("gmail", "organize"), ("drive", "full")] ∧
    parse_permissions_arg ["gmail:bogus"] =
      .error (unknownLevelParseMsg "bogus" "gmail" (gmailLevels.map Prod.fst)) ∧
    parse_permissions_arg ["gmail:readonly", "gmail:full"] =
      .error (duplicateServiceMsg "gmail") := by
  refine ⟨splitFirstColon_append, ?_, ?_, ?_, ?_, ?_, ?_, ?_, ?_, ?_, ?_⟩
  · intro res entry h
    rw [parseStep, splitFirstColon_of_not_mem entry h]
  · intro res a b ha hdup
    rw [parseStep, splitFirstColon_append a b ha]
    simp only [hdup, if_pos]
  · intro res a b ha hdup hsvc
    rw [parseStep, splitFirstColon_append a b ha]
    simp only []
    rw [if_neg (by simp [hdup]), if_pos (by simp [hsvc])]
  · intro res a b levels ha hdup hsvc hlvl
    rw [parseStep, splitFirstColon_append a b ha]
    simp only []
    rw [if_neg (by simp [hdup]), if_neg (by simp [hsvc]),
      if_neg (by simp [get_valid_levels, hsvc, hlvl])]
    simp [get_valid_levels, hsvc]
  · intro res a b levels ha hdup hsvc hlvl
    rw [parseStep, splitFirstColon_append a b ha]
    simp only []
    rw [if_neg (by simp [hdup]), if_neg (by simp [hsvc]),
      if_pos (by simp [get_valid_levels, hsvc, hlvl])]
  · intro es1 es2 e h
    exact parseLoop_append_of_error [] es1 es2 e h
  · intro st es
    rfl
  · decide
  · decide
  · decide

/-- Witness for C4: the malformed, duplicate and fail-fast behaviours at
concrete inputs. -/
theorem c4_parse_permissions_arg_spec_witness :
    parseStep [] "gmail" = .error (invalidFormatMsg "gmail") ∧
    parseStep [("gmail", "readonly")] ("gmail" ++ ":" ++ "full") =
      .error (duplicateServiceMsg "gmail") ∧
    parse_permissions_arg (["gmail:bogus"] ++ ["drive:full"]) =
      .error (unknownLevelParseMsg "bogus" "gmail" (gmailLevels.map Prod.fst)) := by
  obtain ⟨_, h2, h3, _, _, _, h7, _, _, h9b, _⟩ := c4_parse_permissions_arg_spec
  exact ⟨h2 [] "gmail" (by decide),
    h3 [("gmail", "readonly")] "gmail" "full" (by decide) (by decide),
    h7 ["gmail:bogus"] ["drive:full"] _ h9b⟩

/-- C10: the unset permission configuration and the empty permission
configuration behave differently at the scope-filtering interface: while
the configuration is unset (`none`), `get_allowed_scopes_set` returns the
unrestricted sentinel `none`, but after `set_permissions` with the empty
mapping it returns the empty set — configuring zero services disallows
every scope instead of leaving the system unrestricted. -/
theorem c10_unset_vs_empty_config :
    get_allowed_scopes_set none = .ok none ∧
    set_permissions none [] = some [] ∧
    get_allowed_scopes_set (set_permissions none []) = .ok (some []) :=
  ⟨rfl, rfl, rfl⟩

/-! ### Base64 (Python `base64.b64encode/b64decode` and the `urlsafe` variants)

Bytes are `Nat`s below 256; sextets are `Nat`s below 64.  Encoding emits 4
output characters per input group of 3 bytes, padding the final group with
`=` as Python does. -/

def stdB64Alphabet : List Char :=
  "ABCDEFGHIJKLMNOPQRSTUVWXYZabcdefghijklmnopqrstuvwxyz0123456789+/".toList

def urlsafeB64Alphabet : List Char :=
  "ABCDEFGHIJKLMNOPQRSTUVWXYZabcdefghijklmnopqrstuvwxyz0123456789-_".toList

def encChar (alpha : List Char) (n : Nat) : Char := alpha.getD n 'A'

def decChar (alpha : List Char) (c : Char) : Option Nat :=
  let i := alpha.indexOf c
  if i < 64 then some i else none

theorem decChar_lt {alpha : List Char} {c : Char} {n : Nat}
    (h : decChar alpha c = some n) : n < 64 := by
  rw [decChar] at h
  split at h
  · cases h
    assumption
  · cases h

def b64EncodeBytes (alpha : List Char) : List Nat → List Char
  | [] => []
  | [b1] => [encChar alpha (b1 / 4), encChar alpha (b1 % 4 * 16), '=', '=']
  | [b1, b2] =>
    [encChar alpha (b1 / 4), encChar alpha (b1 % 4 * 16 + b2 / 16),
     encChar alpha (b2 % 16 * 4), '=']
  | b1 :: b2 :: b3 :: rest =>
    encChar alpha (b1 / 4) :: encChar alpha (b1 % 4 * 16 + b2 / 16) ::
    encChar alpha (b2 % 16 * 4 + b3 / 64) :: encChar alpha (b3 % 64) ::
    b64EncodeBytes alpha rest

def b64DecodeChars (alpha : List Char) : List Char → Option (List Nat)
  | [] => some []
  | [_] => none
  | [_, _] => none
  | [_, _, _] => none
  | c1 :: c2 :: c3 :: c4 :: rest =>
    match decChar alpha c1, decChar alpha c2 with
    | some n1, some n2 =>
      if c3 = '=' then
        if c4 = '=' ∧ rest = [] then some [n1 * 4 + n2 / 16] else none
      else
        match decChar alpha c3 with
        | some n3 =>
          if c4 = '=' then
            if rest = [] then some [n1 * 4 + n2 / 16, n2 % 16 * 16 + n3 / 4]
            else none
          else
            match decChar alpha c4, b64DecodeChars alpha rest with
            | some n4, some bs =>
              some ((n1 * 4 + n2 / 16) :: (n2 % 16 * 16 + n3 / 4) ::
                (n3 % 4 * 64 + n4) :: bs)
            | _, _ => none
        | none => none
    | _, _ => none

/-- `base64.b64encode` (standard alphabet, with padding). -/
def base64_b64encode (bs : List Nat) : String := ⟨b64EncodeBytes stdB64Alphabet bs⟩

/-- `base64.b64decode` (standard alphabet). -/
def base64_b64decode (s : String) : Option (List Nat) :=
  b64DecodeChars stdB64Alphabet s.toList

/-- `base64.urlsafe_b64encode`. -/
def base64_urlsafe_b64encode (bs : List Nat) : String :=
  ⟨b64EncodeBytes urlsafeB64Alphabet bs⟩

/-- `base64.urlsafe_b64decode`. -/
def base64_urlsafe_b64decode (s : String) : Option (List Nat) :=
  b64DecodeChars urlsafeB64Alphabet s.toList

theorem decChar_encChar_std :
    ∀ n, n < 64 → decChar stdB64Alphabet (encChar stdB64Alphabet n) = some n := by
  decide

theorem encChar_ne_pad_std :
    ∀ n, n < 64 → encChar stdB64Alphabet n ≠ '=' := by
  decide

theorem decChar_encChar_urlsafe :
    ∀ n, n < 64 → decChar urlsafeB64Alphabet (encChar urlsafeB64Alphabet n) = some n := by
  decide

theorem encChar_ne_pad_urlsafe :
    ∀ n, n < 64 → encChar urlsafeB64Alphabet n ≠ '=' := by
  decide

theorem b64_roundtrip_aux (alpha : List Char)
    (hdec : ∀ n, n < 64 → decChar alpha (encChar alpha n) = some n)
    (hne : ∀ n, n < 64 → encChar alpha n ≠ '=') :
    ∀ (fuel : Nat) (bs : List Nat), bs.length ≤ fuel → (∀ b ∈ bs, b < 256) →
      b64DecodeChars alpha (b64EncodeBytes alpha bs) = some bs := by
  intro fuel
  induction fuel with
  | zero =>
    intro bs hlen _
    have hnil : bs = [] := List.length_eq_zero.mp (Nat.le_zero.mp hlen)
    subst hnil
    rfl
  | succ fuel ih =>
    intro bs hlen hb
    match bs with
    | [] => rfl
    | [b1] =>
      have h1 : b1 < 256 := hb b1 (by simp)
      have e1 := hdec (b1 / 4) (by omega)
      have e2 := hdec (b1 % 4 * 16) (by omega)
      show b64DecodeChars alpha
        [encChar alpha (b1 / 4), encChar alpha (b1 % 4 * 16), '=', '='] = some [b1]
      rw [b64DecodeChars]
      simp only [e1, e2]
      simp
      omega
    | [b1, b2] =>
      have h1 : b1 < 256 := hb b1 (by simp)
      have h2 : b2 < 256 := hb b2 (by simp)
      have e1 := hdec (b1 / 4) (by omega)
      have e2 := hdec (b1 % 4 * 16 + b2 / 16) (by omega)
      have e3 := hdec (b2 % 16 * 4) (by omega)
      have ne3 := hne (b2 % 16 * 4) (by omega)
      show b64DecodeChars alpha
        [encChar alpha (b1 / 4), encChar alpha (b1 % 4 * 16 + b2 / 16),
         encChar alpha (b2 % 16 * 4), '='] = some [b1, b2]
      rw [b64DecodeChars]
      simp only [e1, e2, if_neg ne3, e3]
      simp
      omega
    | b1 :: b2 :: b3 :: rest =>
      have h1 : b1 < 256 := hb b1 (by simp)
      have h2 : b2 < 256 := hb b2 (by simp)
      have h3 : b3 < 256 := hb b3 (by simp)
      have e1 := hdec (b1 / 4) (by omega)
      have e2 := hdec (b1 % 4 * 16 + b2 / 16) (by omega)
      have e3 := hdec (b2 % 16 * 4 + b3 / 64) (by omega)
      have e4 := hdec (b3 % 64) (by omega)
      have ne3 := hne (b2 % 16 * 4 + b3 / 64) (by omega)
      have ne4 := hne (b3 % 64) (by omega)
      have hrest : b64DecodeChars alpha (b64EncodeBytes alpha rest) = some rest := by
        apply ih rest (by simp at hlen; omega)
        intro b hbm
        exact hb b (by simp [hbm])
      show b64DecodeChars alpha
        (encChar alpha (b1 / 4) :: encChar alpha (b1 % 4 * 16 + b2 / 16) ::
         encChar alpha (b2 % 16 * 4 + b3 / 64) :: encChar alpha (b3 % 64) ::
         b64EncodeBytes alpha rest) = some (b1 :: b2 :: b3 :: rest)
      rw [b64DecodeChars]
      simp only [e1, e2, if_neg ne3, e3, if_neg ne4, e4, hrest]
      simp
      omega

/-- Base64 round-trip: decoding an encoding recovers the bytes exactly. -/
theorem b64_roundtrip (alpha : List Char)
    (hdec : ∀ n, n < 64 → decChar alpha (encChar alpha n) = some n)
    (hne : ∀ n, n < 64 → encChar alpha n ≠ '=')
    (bs : List Nat) (hb : ∀ b ∈ bs, b < 256) :
    b64DecodeChars alpha (b64EncodeBytes alpha bs) = some bs :=
  b64_roundtrip_aux alpha hdec hne bs.length bs (Nat.le_refl _) hb

theorem base64_roundtrip_std (bs : List Nat) (hb : ∀ b ∈ bs, b < 256) :
    base64_b64decode (base64_b64encode bs) = some bs :=
  b64_roundtrip stdB64Alphabet decChar_encChar_std encChar_ne_pad_std bs hb

/-- Every byte produced by the decoder is below 256. -/
theorem b64DecodeChars_bounds_aux (alpha : List Char) :
    ∀ (fuel : Nat) (cs : List Char) (bs : List Nat), cs.length ≤ fuel →
      b64DecodeChars alpha cs = some bs → ∀ b ∈ bs, b < 256 := by
  intro fuel
  induction fuel with
  | zero =>
    intro cs bs hlen h b hbm
    have hnil : cs = [] := List.length_eq_zero.mp (Nat.le_zero.mp hlen)
    subst hnil
    cases h
    simp at hbm
  | succ fuel ih =>
    intro cs bs hlen h b hbm
    match cs with
    | [] =>
      cases h
      simp at hbm
    | [_] => cases h
    | [_, _] => cases h
    | [_, _, _] => cases h
    | c1 :: c2 :: c3 :: c4 :: rest =>
      rw [b64DecodeChars] at h
      cases hd1 : decChar alpha c1 with
      | none =>
        rw [hd1] at h
        cases h
      | some n1 =>
        cases hd2 : decChar alpha c2 with
        | none =>
          rw [hd1, hd2] at h
          cases h
        | some n2 =>
          rw [hd1, hd2] at h
          simp only [] at h
          have hn1 := decChar_lt hd1
          have hn2 := decChar_lt hd2
          by_cases hc3 : c3 = '='
          · rw [if_pos hc3] at h
            split at h
            · cases h
              simp only [List.mem_singleton] at hbm
              omega
            · cases h
          · rw [if_neg hc3] at h
            cases hd3 : decChar alpha c3 with
            | none =>
              rw [hd3] at h
              cases h
            | some n3 =>
              rw [hd3] at h
              simp only [] at h
              have hn3 := decChar_lt hd3
              by_cases hc4 : c4 = '='
              · rw [if_pos hc4] at h
                split at h
                · cases h
                  simp only [List.mem_cons, List.mem_singleton] at hbm
                  rcases hbm with rfl | rfl | hbm2
                  · omega
                  · omega
                  · simp at hbm2
                · cases h
              · rw [if_neg hc4] at h
                cases hd4 : decChar alpha c4 with
                | none =>
                  rw [hd4] at h
                  cases h
                | some n4 =>
                  cases hrest : b64DecodeChars alpha rest with
                  | none =>
                    rw [hd4, hrest] at h
                    cases h
                  | some bs2 =>
                    rw [hd4, hrest] at h
                    simp only [] at h
                    have hn4 := decChar_lt hd4
                    cases h
                    simp only [List.mem_cons] at hbm
                    rcases hbm with rfl | rfl | rfl | hbm2
                    · omega
                    · omega
                    · omega
                    · exact ih rest bs2 (by simp at hlen; omega) hrest b hbm2

theorem b64DecodeChars_bounds {alpha : List Char} {cs : List Char} {bs : List Nat}
    (h : b64DecodeChars alpha cs = some bs) : ∀ b ∈ bs, b < 256 :=
  b64DecodeChars_bounds_aux alpha cs.length cs bs (Nat.le_refl _) h

/-! ### Attachment resolution and MIME assembly

The implementation file `gmail/gmail_tools.py` is not among the sources
under study; only its unit tests (`src/tests/gmail/...`) are.  The
definitions in this section are therefore modelled from the specification
(sections 3, 4.2, 4.3) and constrained by the behaviour the repository's
tests assert. -/

/-- Modelled from the spec: the 25 MiB ceiling on decoded attachment size
enforced by the missing `gmail/gmail_tools.py` ("byte length ≤ a fixed
ceiling (25 MiB)"; the tests use `25 * 1024 * 1024 + 1` as the first
failing size). -/
def MAX_ATTACHMENT_BYTES : Nat := 25 * 1024 * 1024

/-- Modelled from the spec: one entry of the serialized attachment spec
(section 6): `filename`, optional `mime_type`, and either `content_base64`
or the (`source_message_id`, `source_attachment_id`) reference pair. -/
structure AttachmentItem where
  filename : Option String
  mime_type : Option String
  content_base64 : Option String
  source_message_id : Option String
  source_attachment_id : Option String
deriving DecidableEq

/-- Modelled from the spec: a resolved attachment as the missing
`_resolve_attachments` of `gmail/gmail_tools.py` returns it — filename,
resolved MIME type, and content as standard base64 (the tests read
`result[i]["content_base64"]` and decode it with `base64.b64decode`). -/
structure ResolvedAttachment where
  filename : String
  mime_type : String
  content_base64 : String
deriving DecidableEq

/-- Modelled from the spec: a fragment of the standard extension→type table
consulted by MIME-type inference (section 4.2); only the mappings the
repository's tests exercise are reproduced. -/
def mimeTypeTable : List (String × String) :=
  [ (".txt", "text/plain"), (".pdf", "application/pdf"), (".png", "image/png"),
    (".jpg", "image/jpeg"), (".csv", "text/csv"), (".html", "text/html") ]

def extensionFrom : List Char → Option (List Char) → Option (List Char)
  | [], acc => acc
  | c :: cs, acc =>
    if c = '.' then extensionFrom cs (some [])
    else extensionFrom cs (acc.map (fun a => a ++ [c]))

/-- The lowercased extension of a filename (from the last dot, inclusive). -/
def fileExtension (filename : String) : Option String :=
  (extensionFrom filename.toList none).map (fun l => ⟨'.' :: l.map Char.toLower⟩)

/-- Modelled from the spec: MIME-type resolution (section 4.2) — use the
explicit type when given, otherwise derive from the filename's extension,
defaulting to `application/octet-stream`. -/
def resolveMimeType (explicit : Option String) (filename : String) : String :=
  match explicit with
  | some mt => mt
  | none =>
    match (fileExtension filename).bind (fun e => alistLookup e mimeTypeTable) with
    | some mt => mt
    | none => "application/octet-stream"

/-- Modelled from the spec: the `SizeLimitExceeded` message "naming the
literal limit" (and matched by the test against `25MB`). -/
def sizeLimitMsg (filename : String) : String :=
  "Attachment " ++ pyQuote filename ++ " exceeds maximum size of 25MB"

/-- Modelled from the spec: the `MissingField` message naming `filename`. -/
def missingFilenameMsg : String :=
  "Attachment item missing required field: filename"

/-- Modelled from the spec: the `MissingField` message for a descriptor
with neither inline content nor a reference pair (matched by the test
against `content_base64`). -/
def missingContentMsg (filename : String) : String :=
  "Attachment " ++ pyQuote filename ++
    " must include either content_base64 or source_message_id/source_attachment_id"

/-- Modelled from the spec: the `InvalidEncoding` message (matched by the
test against `Invalid base64`). -/
def invalidBase64Msg (filename : String) : String :=
  "Invalid base64 content for attachment " ++ pyQuote filename

/-- Modelled from the spec: the `RemoteServiceError` wrapper for a failed
remote fetch. -/
def remoteErrorMsg (mid aid : String) : String :=
  "RemoteServiceError: failed to fetch attachment " ++ pyQuote aid ++
    " from message " ++ pyQuote mid

/-- Modelled from the spec: the injected remote-fetch capability
`getAttachmentBytes(messageId, attachmentId) -> (urlSafeBase64Data,
declaredSizeBytes)` (section 6); `none` is a transport failure. -/
abbrev RemoteFetcher := String → String → Option (String × Nat)

/-- Modelled from the spec: resolution of one attachment descriptor by the
missing `_resolve_attachments` of `gmail/gmail_tools.py` (section 4.2):
filename mandatory; inline path decodes standard base64 and enforces the
25 MiB ceiling; reference path fetches, decodes URL-safe base64 and
applies the same ceiling; MIME type resolved last; a descriptor with
neither content nor a reference pair is a `MissingField` error. -/
def resolveOne (fetch : RemoteFetcher) (item : AttachmentItem) :
    Except String ResolvedAttachment :=
  match item.filename with
  | none => .error missingFilenameMsg
  | some fn =>
    match item.content_base64 with
    | some data =>
      match base64_b64decode data with
      | none => .error (invalidBase64Msg fn)
      | some bytes =>
        if MAX_ATTACHMENT_BYTES < bytes.length then .error (sizeLimitMsg fn)
        else .ok ⟨fn, resolveMimeType item.mime_type fn, data⟩
    | none =>
      match item.source_message_id, item.source_attachment_id with
      | some mid, some aid =>
        match fetch mid aid with
        | none => .error (remoteErrorMsg mid aid)
        | some (data, _declaredSize) =>
          match base64_urlsafe_b64decode data with
          | none => .error (invalidBase64Msg fn)
          | some bytes =>
            if MAX_ATTACHMENT_BYTES < bytes.length then .error (sizeLimitMsg fn)
            else .ok ⟨fn, resolveMimeType item.mime_type fn, base64_b64encode bytes⟩
      | _, _ => .error (missingContentMsg fn)

/-- Modelled from the spec: fail-fast resolution of a descriptor list in
input order — the first failing descriptor aborts the whole call. -/
def resolveAttachmentItems (fetch : RemoteFetcher) :
    List AttachmentItem → Except String (List ResolvedAttachment)
  | [] => .ok []
  | item :: rest =>
    match resolveOne fetch item with
    | .error e => .error e
    | .ok r =>
      match resolveAttachmentItems fetch rest with
      | .error e => .error e
      | .ok rs => .ok (r :: rs)

/-- Modelled from the spec: filename sanitization before header assembly —
remove every carriage return and line feed, never reject
(`filename.replace("\r", "").replace("\n", "")`, reproduced verbatim in
`test_sanitization_of_newlines` and `test_mime_integration.py`). -/
def sanitizeFilename (filename : String) : String :=
  ⟨filename.toList.filter (fun c => decide (c ≠ '\r') && decide (c ≠ '\n'))⟩

def hexChars : List Char := "0123456789ABCDEF".toList

def hexDigit (n : Nat) : Char := hexChars.getD (n % 16) '0'

/-- UTF-8 encoding of one character (code point to bytes). -/
def utf8Bytes (c : Char) : List Nat :=
  let n := c.toNat
  if n < 128 then [n]
  else if n < 2048 then [192 + n / 64, 128 + n % 64]
  else if n < 65536 then [224 + n / 4096, 128 + n / 64 % 64, 128 + n % 64]
  else [240 + n / 262144, 128 + n / 4096 % 64, 128 + n / 64 % 64, 128 + n % 64]

def percentEncodeBytes (bytes : List Nat) : List Char :=
  bytes.flatMap (fun b => ['%', hexDigit (b / 16), hexDigit (b % 16)])

/-- RFC 2231 extended-parameter value: `utf-8''` followed by the
percent-encoded UTF-8 bytes of the value. -/
def rfc2231Value (s : String) : List Char :=
  "utf-8\x27\x27".toList ++ percentEncodeBytes (s.toList.flatMap utf8Bytes)

/-- Modelled from the spec: the serialized `Content-Disposition` header of
an attachment part (section 4.3) — type `attachment` naming the sanitized
filename, as a plain quoted value for ASCII names and as an RFC 2231
extended parameter otherwise (either representation is conformant per the
spec). -/
def contentDispositionFor (filename : String) : String :=
  let safe := sanitizeFilename filename
  if safe.toList.all (fun c => decide (c.toNat < 128)) then
    "attachment; filename=\"" ++ safe ++ "\""
  else
    ⟨"attachment; filename*=".toList ++ rfc2231Value safe⟩

/-- A serialized MIME body part: content type, optional disposition and
transfer-encoding headers, and the payload text. -/
structure MimePart where
  contentType : String
  contentDisposition : Option String
  transferEncoding : Option String
  payload : String
deriving DecidableEq

/-- A prepared message: single-part, or multipart with an ordered part list. -/
inductive MimeMessage where
  | single (headers : List (String × String)) (part : MimePart)
  | multipart (headers : List (String × String)) (parts : List MimePart)
deriving DecidableEq

def MimeMessage.isMultipart : MimeMessage → Bool
  | .single _ _ => false
  | .multipart _ _ => true

/-- Python `s.startswith(pre)`. -/
def startsWithStr (pre s : String) : Bool := pre.toList.isPrefixOf s.toList

/-- Modelled from the spec: the reply-subject rule of `prepareMessage` —
prefix with `Re: ` only when replying and not already so prefixed. -/
def replySubject (subject : String) (in_reply_to : Option String) : String :=
  if in_reply_to.isSome && !(startsWithStr "Re: " subject) then "Re: " ++ subject
  else subject

def mkHeaders (subject toAddr : String) (in_reply_to references : Option String) :
    List (String × String) :=
  [("Subject", subject), ("To", toAddr)] ++
    (match in_reply_to with | some v => [("In-Reply-To", v)] | none => []) ++
    (match references with | some v => [("References", v)] | none => [])

/-- The body part: `text/plain`, or `text/html` when `body_format` is `html`. -/
def mkBodyPart (body body_format : String) : MimePart :=
  ⟨if body_format = "html" then "text/html" else "text/plain", none, none, body⟩

/-- Modelled from the spec: assembly of one attachment part by the missing
`_prepare_gmail_message` of `gmail/gmail_tools.py` — decode the resolved
content, then attach it with the attachment's MIME type, base64 content
transfer encoding (`encoders.encode_base64`) and a `Content-Disposition`
header naming the sanitized filename. -/
def attachmentPartOf (att : ResolvedAttachment) : Except String MimePart :=
  match base64_b64decode att.content_base64 with
  | none => .error (invalidBase64Msg att.filename)
  | some bytes =>
    .ok ⟨att.mime_type, some (contentDispositionFor att.filename), some "base64",
      ⟨b64EncodeBytes stdB64Alphabet bytes⟩⟩

def attachmentParts : List ResolvedAttachment → Except String (List MimePart)
  | [] => .ok []
  | att :: rest =>
    match attachmentPartOf att with
    | .error e => .error e
    | .ok p =>
      match attachmentParts rest with
      | .error e => .error e
      | .ok ps => .ok (p :: ps)

/-- Modelled from the spec: `_prepare_gmail_message` of the missing
`gmail/gmail_tools.py` (section 4.3): absent or empty attachments produce
a single-part text message; otherwise a multipart container whose first
part is the body and whose subsequent parts are one per attachment in
input order.  Returns the structured message and the effective thread id
(wire serialization by the Python `email` library is treated as the
identity on this structure). -/
def _prepare_gmail_message (subject body toAddr : String) (body_format : String)
    (thread_id in_reply_to references : Option String)
    (attachments : Option (List ResolvedAttachment)) :
    Except String (MimeMessage × Option String) :=
  let headers := mkHeaders (replySubject subject in_reply_to) toAddr in_reply_to references
  let bodyPart := mkBodyPart body body_format
  match attachments with
  | none => .ok (.single headers bodyPart, thread_id)
  | some [] => .ok (.single headers bodyPart, thread_id)
  | some atts =>
    match attachmentParts atts with
    | .error e => .error e
    | .ok parts => .ok (.multipart headers (bodyPart :: parts), thread_id)

/-- Modelled from the spec: the forwarding subject rule of the missing
`_forward_gmail_message_impl` — prefix with `Fwd: ` unless already so
prefixed (case-sensitive, single check; no strip-and-re-add). -/
def forwardSubject (subject : String) : String :=
  if startsWithStr "Fwd: " subject then subject else "Fwd: " ++ subject

/-! ### Theorems about attachment resolution and assembly -/

/-- C7: resolving a descriptor that has a filename but neither inline
content nor a source reference pair fails with a missing-field error whose
message mentions `content_base64`. -/
theorem c7_missing_content_and_source (fetch : RemoteFetcher)
    (fn : String) (mt : Option String) :
    resolveOne fetch ⟨some fn, mt, none, none, none⟩ = .error (missingContentMsg fn) ∧
    "content_base64".toList <:+: (missingContentMsg fn).toList := by
  constructor
  · rfl
  · show "content_base64".toList <:+:
      ("Attachment " ++ pyQuote fn ++
        " must include either content_base64 or source_message_id/source_attachment_id").toList
    rw [toList_append]
    exact infix_append_right_ext _ (by decide)

/-- C3: the size ceiling on resolution — a decoded length of at most
25 MiB (in particular exactly 25 MiB) passes the size check and resolution
succeeds, while any greater decoded length fails with the size-limit error
mentioning `25MB`; the same ceiling governs the inline path and the
remote-reference path after fetching. -/
theorem c3_resolve_size_limit
    (fetch : RemoteFetcher) (fn : String) (mt : Option String)
    (data : String) (bs : List Nat)
    (mid aid data2 : String) (declaredSize : Nat) (bs2 : List Nat)
    (hdec : base64_b64decode data = some bs)
    (hfetch : fetch mid aid = some (data2, declaredSize))
    (hdec2 : base64_urlsafe_b64decode data2 = some bs2) :
    (bs.length ≤ MAX_ATTACHMENT_BYTES →
      resolveOne fetch ⟨some fn, mt, some data, none, none⟩ =
        .ok ⟨fn, resolveMimeType mt fn, data⟩) ∧
    (MAX_ATTACHMENT_BYTES < bs.length →
      resolveOne fetch ⟨some fn, mt, some data, none, none⟩ = .error (sizeLimitMsg fn) ∧
      "25MB".toList <:+: (sizeLimitMsg fn).toList) ∧
    (bs2.length ≤ MAX_ATTACHMENT_BYTES →
      resolveOne fetch ⟨some fn, mt, none, some mid, some aid⟩ =
        .ok ⟨fn, resolveMimeType mt fn, base64_b64encode bs2⟩) ∧
    (MAX_ATTACHMENT_BYTES < bs2.length →
      resolveOne fetch ⟨some fn, mt, none, some mid, some aid⟩ = .error (sizeLimitMsg fn) ∧
      "25MB".toList <:+: (sizeLimitMsg fn).toList) := by
  have hinfix : "25MB".toList <:+: (sizeLimitMsg fn).toList := by
    show "25MB".toList <:+:
      ("Attachment " ++ pyQuote fn ++ " exceeds maximum size of 25MB").toList
    rw [toList_append]
    exact infix_append_right_ext _ (by decide)
  refine ⟨?_, ?_, ?_, ?_⟩
  · intro hle
    simp only [resolveOne, hdec]
    rw [if_neg (by omega)]
  · intro hgt
    refine ⟨?_, hinfix⟩
    simp only [resolveOne, hdec]
    rw [if_pos hgt]
  · intro hle
    simp only [resolveOne, hfetch, hdec2]
    rw [if_neg (by omega)]
  · intro hgt
    refine ⟨?_, hinfix⟩
    simp only [resolveOne, hfetch, hdec2]
    rw [if_pos hgt]

/-- Witness for C3 at a small concrete fetcher and contents (the theorem's
size dichotomies are implications over the decoded lengths). -/
theorem c3_resolve_size_limit_witness :
    ((104 :: 105 :: ([] : List Nat)).length ≤ MAX_ATTACHMENT_BYTES →
      resolveOne (fun _ _ => some ("aGk=", 2)) ⟨some "f.txt", some "text/plain", some "aGk=", none, none⟩ =
        .ok ⟨"f.txt", resolveMimeType (some "text/plain") "f.txt", "aGk="⟩) ∧
    (MAX_ATTACHMENT_BYTES < (104 :: 105 :: ([] : List Nat)).length →
      resolveOne (fun _ _ => some ("aGk=", 2)) ⟨some "f.txt", some "text/plain", some "aGk=", none, none⟩ =
        .error (sizeLimitMsg "f.txt") ∧
      "25MB".toList <:+: (sizeLimitMsg "f.txt").toList) ∧
    ((104 :: 105 :: ([] : List Nat)).length ≤ MAX_ATTACHMENT_BYTES →
      resolveOne (fun _ _ => some ("aGk=", 2)) ⟨some "f.txt", some "text/plain", none, some "m1", some "a1"⟩ =
        .ok ⟨"f.txt", resolveMimeType (some "text/plain") "f.txt", base64_b64encode (104 :: 105 :: [])⟩) ∧
    (MAX_ATTACHMENT_BYTES < (104 :: 105 :: ([] : List Nat)).length →
      resolveOne (fun _ _ => some ("aGk=", 2)) ⟨some "f.txt", some "text/plain", none, some "m1", some "a1"⟩ =
        .error (sizeLimitMsg "f.txt") ∧
      "25MB".toList <:+: (sizeLimitMsg "f.txt").toList) :=
  c3_resolve_size_limit (fun _ _ => some ("aGk=", 2)) "f.txt" (some "text/plain")
    "aGk=" (104 :: 105 :: []) "m1" "a1" "aGk=" 2 (104 :: 105 :: [])
    (by decide) rfl (by decide)

theorem hexChars_length : hexChars.length = 16 := rfl

theorem hexDigit_mem (n : Nat) : hexDigit n ∈ hexChars := by
  rw [hexDigit]
  have hlt : n % 16 < hexChars.length := by
    rw [hexChars_length]
    exact Nat.mod_lt _ (by omega)
  rw [List.getD_eq_getElem hexChars '0' hlt]
  exact List.getElem_mem hlt

theorem crlf_not_mem_contentDisposition (c : Char)
    (hc : c = '\r' ∨ c = '\n') (fn : String) :
    c ∉ (contentDispositionFor fn).toList := by
  have hsafe : ∀ x ∈ (sanitizeFilename fn).toList, x ≠ '\r' ∧ x ≠ '\n' := by
    intro x hx
    have h2 := List.mem_filter.mp hx
    simpa using h2.2
  rcases hc with rfl | rfl <;>
  · intro hmem
    simp only [contentDispositionFor] at hmem
    split at hmem
    · rw [toList_append, toList_append] at hmem
      rcases List.mem_append.mp hmem with h | h
      · rcases List.mem_append.mp h with h2 | h2
        · exact absurd h2 (by decide)
        · first
          | exact (hsafe _ h2).1 rfl
          | exact (hsafe _ h2).2 rfl
      · exact absurd h (by decide)
    · replace hmem :
        _ ∈ "attachment; filename*=".toList ++ rfc2231Value (sanitizeFilename fn) := hmem
      rcases List.mem_append.mp hmem with h | h
      · exact absurd h (by decide)
      · rw [rfc2231Value] at h
        rcases List.mem_append.mp h with h2 | h2
        · exact absurd h2 (by decide)
        · rw [percentEncodeBytes] at h2
          obtain ⟨b, _, hcb⟩ := List.mem_flatMap.mp h2
          simp only [List.mem_cons, List.not_mem_nil, or_false] at hcb
          rcases hcb with h3 | h3 | h3
          · exact absurd h3 (by decide)
          · have hm := hexDigit_mem (b / 16)
            rw [← h3] at hm
            exact absurd hm (by decide)
          · have hm := hexDigit_mem (b % 16)
            rw [← h3] at hm
            exact absurd hm (by decide)

/-- C8: the assembler strips every carriage return and line feed from a
supplied filename before building the `Content-Disposition` header (never
rejecting the input): `test\r\nfile.pdf` sanitizes to `testfile.pdf`, and
no raw CR or LF character ever occurs in the serialized header, for any
filename. -/
theorem c8_filename_sanitization :
    sanitizeFilename "test\r\nfile.pdf" = "testfile.pdf" ∧
    ∀ fn : String,
      '\r' ∉ (contentDispositionFor fn).toList ∧
      '\n' ∉ (contentDispositionFor fn).toList := by
  refine ⟨by decide, fun fn => ⟨?_, ?_⟩⟩
  · exact crlf_not_mem_contentDisposition _ (Or.inl rfl) fn
  · exact crlf_not_mem_contentDisposition _ (Or.inr rfl) fn

theorem isPrefixOf_append_self (l t : List Char) : l.isPrefixOf (l ++ t) = true := by
  simp [List.isPrefixOf_iff_prefix]

/-- C9: the forwarding operation prefixes the subject with `Fwd: ` exactly
when it does not already start with that case-sensitive prefix:
`Fwd: Already forwarded` is left unchanged, `Quarterly Report` becomes
`Fwd: Quarterly Report`, and the prefixing step is idempotent. -/
theorem c9_forward_subject :
    forwardSubject "Fwd: Already forwarded" = "Fwd: Already forwarded" ∧
    forwardSubject "Quarterly Report" = "Fwd: Quarterly Report" ∧
    (∀ s, startsWithStr "Fwd: " s = true → forwardSubject s = s) ∧
    (∀ s, startsWithStr "Fwd: " s = false → forwardSubject s = "Fwd: " ++ s) ∧
    (∀ s, forwardSubject (forwardSubject s) = forwardSubject s) := by
  have hpos : ∀ s, startsWithStr "Fwd: " s = true → forwardSubject s = s := by
    intro s h
    rw [forwardSubject, if_pos h]
  have hneg : ∀ s, startsWithStr "Fwd: " s = false → forwardSubject s = "Fwd: " ++ s := by
    intro s h
    rw [forwardSubject, if_neg (by simp [h])]
  refine ⟨by decide, by decide, hpos, hneg, ?_⟩
  intro s
  cases h : startsWithStr "Fwd: " s with
  | true =>
    rw [hpos s h, hpos s h]
  | false =>
    rw [hneg s h]
    apply hpos
    rw [startsWithStr, toList_append]
    exact isPrefixOf_append_self _ _

/-- Witness for C9's conditional clauses at concrete subjects. -/
theorem c9_forward_subject_witness :
    forwardSubject "Fwd: x" = "Fwd: x" ∧
    forwardSubject "Report" = "Fwd: " ++ "Report" := by
  obtain ⟨_, _, hpos, hneg, _⟩ := c9_forward_subject
  exact ⟨hpos "Fwd: x" (by decide), hneg "Report" (by decide)⟩

theorem attachmentParts_ok :
    ∀ (atts : List ResolvedAttachment) (bss : List (List Nat)),
      List.Forall₂ (fun a bs => base64_b64decode a.content_base64 = some bs) atts bss →
      ∃ parts, attachmentParts atts = .ok parts ∧
        List.Forall₂ (fun (p : MimePart) (x : ResolvedAttachment × List Nat) =>
          p.contentDisposition = some (contentDispositionFor x.1.filename) ∧
          p.contentType = x.1.mime_type ∧
          p.transferEncoding = some "base64" ∧
          base64_b64decode p.payload = some x.2)
        parts (atts.zip bss) := by
  intro atts bss h
  induction h with
  | nil => exact ⟨[], rfl, List.Forall₂.nil⟩
  | @cons a bs l1 l2 hab hrest ih =>
    obtain ⟨parts, hp, hf⟩ := ih
    refine ⟨⟨a.mime_type, some (contentDispositionFor a.filename), some "base64",
      ⟨b64EncodeBytes stdB64Alphabet bs⟩⟩ :: parts, ?_, ?_⟩
    · simp only [attachmentParts, attachmentPartOf, hab, hp]
    · rw [List.zip_cons_cons]
      refine List.Forall₂.cons ⟨rfl, rfl, rfl, ?_⟩ hf
      show base64_b64decode ⟨b64EncodeBytes stdB64Alphabet bs⟩ = some bs
      exact base64_roundtrip_std bs (b64DecodeChars_bounds hab)

/-- C2 counterexample: at N = 0 (an empty — but present — attachment
list) the assembler produces a single-part text message, not a multipart
container with one part, exactly as the repository's own test
`test_prepare_message_empty_attachments_list` asserts. -/
theorem c2_counterexample :
    (_prepare_gmail_message "Subject" "Body" "a@b.com" "plain" none none none
        (some [])).map (fun r => r.1.isMultipart) = .ok false := rfl

/-- C2 amended: for every envelope and every nonempty list of N
successfully resolved attachments, `_prepare_gmail_message` produces a
multipart message with exactly N+1 parts, the body part first and
attachment parts in input order, and base64-decoding the payload of part
i+1 yields exactly the bytes supplied for descriptor i. -/
theorem c2_prepare_multipart_roundtrip
    (subject body toAddr body_format : String)
    (thread_id in_reply_to references : Option String)
    (atts : List ResolvedAttachment) (bss : List (List Nat))
    (hne : atts ≠ [])
    (hdec : List.Forall₂ (fun a bs => base64_b64decode a.content_base64 = some bs) atts bss) :
    ∃ parts,
      _prepare_gmail_message subject body toAddr body_format thread_id in_reply_to references
          (some atts) =
        .ok (.multipart (mkHeaders (replySubject subject in_reply_to) toAddr in_reply_to references)
          (mkBodyPart body body_format :: parts), thread_id) ∧
      parts.length = atts.length ∧
      List.Forall₂ (fun (p : MimePart) (x : ResolvedAttachment × List Nat) =>
          p.contentDisposition = some (contentDispositionFor x.1.filename) ∧
          p.contentType = x.1.mime_type ∧
          p.transferEncoding = some "base64" ∧
          base64_b64decode p.payload = some x.2)
        parts (atts.zip bss) := by
  obtain ⟨parts, hp, hf⟩ := attachmentParts_ok atts bss hdec
  refine ⟨parts, ?_, ?_, hf⟩
  · cases atts with
    | nil => exact absurd rfl hne
    | cons a rest =>
      simp only [_prepare_gmail_message, hp]
  · have h1 := hf.length_eq
    have h2 := hdec.length_eq
    rw [h1, List.length_zip]
    omega

/-- Witness for C2's amended theorem: one inline attachment whose content
decodes to the two bytes 104, 105. -/
theorem c2_prepare_multipart_roundtrip_witness :
    ∃ parts,
      _prepare_gmail_message "S" "B" "a@b.com" "plain" none none none
          (some [⟨"test.txt", "text/plain", "aGk="⟩]) =
        .ok (.multipart (mkHeaders (replySubject "S" none) "a@b.com" none none)
          (mkBodyPart "B" "plain" :: parts), none) ∧
      parts.length = ([⟨"test.txt", "text/plain", "aGk="⟩] : List ResolvedAttachment).length ∧
      List.Forall₂ (fun (p : MimePart) (x : ResolvedAttachment × List Nat) =>
          p.contentDisposition = some (contentDispositionFor x.1.filename) ∧
          p.contentType = x.1.mime_type ∧
          p.transferEncoding = some "base64" ∧
          base64_b64decode p.payload = some x.2)
        parts (([⟨"test.txt", "text/plain", "aGk="⟩] : List ResolvedAttachment).zip
          [[104, 105]]) :=
  c2_prepare_multipart_roundtrip "S" "B" "a@b.com" "plain" none none none
    [⟨"test.txt", "text/plain", "aGk="⟩] [[104, 105]] (by simp)
    (List.Forall₂.cons (by decide) List.Forall₂.nil)
